import Mathlib

/-
Shallow embedding of the InventoryTracker server (TypeScript/Express/Drizzle).

Sources embedded:
  - shared/schema.ts        : table row types and the zod insert schemas
  - server/storage.ts       : DatabaseStorage operations on the four tables
  - server/routes.ts        : POST /api/items, POST /api/assignments,
                              GET /api/items/low-stock
  - server/notification-service.ts : checkLowStock, checkInvoiceApproval

Database integer columns are modelled as Int (they may be negative), serial
primary keys as Nat counters, the real unit_price column as Rat, and the
created_at timestamp as an Int of milliseconds (the code compares timestamps
via getTime() milliseconds). Fallible request parsing returns Option.
-/

namespace InventoryTracker

/-- Row of the invoices table (shared/schema.ts). -/
structure Invoice where
  id : Nat
  invoiceNumber : String
  vendorName : String
  purchaseDate : String
  fileName : Option String
  filePath : Option String
deriving DecidableEq

/-- Row of the items table (shared/schema.ts). -/
structure Item where
  id : Nat
  name : String
  category : String
  quantityPurchased : Int
  quantityAvailable : Int
  unitPrice : Rat
  invoiceId : Nat
deriving DecidableEq

/-- Row of the assignments table (shared/schema.ts). -/
structure Assignment where
  id : Nat
  itemId : Nat
  quantity : Int
  assignedTo : String
  reason : Option String
  assignmentDate : String
deriving DecidableEq

/-- Row of the notifications table (migration schema): isRead is an integer
defaulting to 0, createdAt defaults to the insertion time. -/
structure Notification where
  id : Nat
  type : String
  title : String
  message : String
  priority : String
  isRead : Int
  relatedId : Option Nat
  createdAt : Int
deriving DecidableEq

/-- The persistent store: the four tables plus the serial id counters. -/
structure State where
  invoices : List Invoice
  items : List Item
  assignments : List Assignment
  notifications : List Notification
  nextInvoiceId : Nat
  nextItemId : Nat
  nextAssignmentId : Nat
  nextNotificationId : Nat
deriving DecidableEq

/-- Empty database, serial counters starting at 1. -/
def initialState : State :=
  { invoices := [], items := [], assignments := [], notifications := [],
    nextInvoiceId := 1, nextItemId := 1, nextAssignmentId := 1, nextNotificationId := 1 }

/-! ### Insert types produced by the zod schemas (shared/schema.ts) -/

/-- InsertItem: insertItemSchema omits id and quantityAvailable. -/
structure InsertItem where
  name : String
  category : String
  quantityPurchased : Int
  unitPrice : Rat
  invoiceId : Nat
deriving DecidableEq

/-- InsertAssignment: insertAssignmentSchema omits only id; note that no
positivity bound is placed on quantity. -/
structure InsertAssignment where
  itemId : Nat
  quantity : Int
  assignedTo : String
  reason : Option String
  assignmentDate : String
deriving DecidableEq

/-- InsertNotification as used by the notification service: isRead and
createdAt are filled in by the database defaults. -/
structure InsertNotification where
  type : String
  title : String
  message : String
  priority : String
  relatedId : Option Nat
deriving DecidableEq

/-! ### Raw request bodies and zod parsing

A raw JSON body may miss required fields; zod parsing fails (ZodError) when a
required field is absent and strips unknown or omitted keys. The only
constraints the insert schemas impose are presence and type of the required
columns; no sign or range constraint exists. -/

/-- Raw body for one item of POST /api/items; quantityAvailable may be
supplied by the client but is omitted by insertItemSchema. -/
structure RawItem where
  name : Option String
  category : Option String
  quantityPurchased : Option Int
  quantityAvailable : Option Int
  unitPrice : Option Rat
  invoiceId : Option Nat
deriving DecidableEq

/-- Raw body of POST /api/assignments. -/
structure RawAssignment where
  itemId : Option Nat
  quantity : Option Int
  assignedTo : Option String
  reason : Option String
  assignmentDate : Option String
deriving DecidableEq

/-- insertItemSchema.parse: requires name, category, quantityPurchased,
unitPrice, invoiceId; ignores any client-supplied quantityAvailable. -/
def parseItem (r : RawItem) : Option InsertItem :=
  match r.name, r.category, r.quantityPurchased, r.unitPrice, r.invoiceId with
  | some n, some c, some qp, some up, some inv =>
      some { name := n, category := c, quantityPurchased := qp,
             unitPrice := up, invoiceId := inv }
  | _, _, _, _, _ => none

/-- insertAssignmentSchema.parse: requires itemId, quantity, assignedTo,
assignmentDate; reason is optional; quantity may be any integer. -/
def parseAssignment (r : RawAssignment) : Option InsertAssignment :=
  match r.itemId, r.quantity, r.assignedTo, r.assignmentDate with
  | some iid, some q, some ato, some ad =>
      some { itemId := iid, quantity := q, assignedTo := ato,
             reason := r.reason, assignmentDate := ad }
  | _, _, _, _ => none

/-! ### DatabaseStorage operations (server/storage.ts) -/

/-- DatabaseStorage.getItemById: select where id = id. -/
def getItemById (s : State) (id : Nat) : Option Item :=
  s.items.find? (fun i => i.id == id)

/-- DatabaseStorage.createItem: inserts with
quantityAvailable := insertItem.quantityPurchased. -/
def createItem (s : State) (v : InsertItem) : State × Item :=
  let item : Item :=
    { id := s.nextItemId, name := v.name, category := v.category,
      quantityPurchased := v.quantityPurchased,
      quantityAvailable := v.quantityPurchased,
      unitPrice := v.unitPrice, invoiceId := v.invoiceId }
  ({ s with items := s.items ++ [item], nextItemId := s.nextItemId + 1 }, item)

/-- DatabaseStorage.updateItemQuantity: update items set quantity_available
where id = id, returning the updated row. -/
def updateItemQuantity (s : State) (id : Nat) (qa : Int) : State × Option Item :=
  let updated := s.items.map (fun i => if i.id == id then { i with quantityAvailable := qa } else i)
  ({ s with items := updated }, updated.find? (fun i => i.id == id))

/-- DatabaseStorage.createAssignment: insert with the next serial id. -/
def createAssignment (s : State) (v : InsertAssignment) : State × Assignment :=
  let a : Assignment :=
    { id := s.nextAssignmentId, itemId := v.itemId, quantity := v.quantity,
      assignedTo := v.assignedTo, reason := v.reason, assignmentDate := v.assignmentDate }
  ({ s with assignments := s.assignments ++ [a], nextAssignmentId := s.nextAssignmentId + 1 }, a)

/-- DatabaseStorage.createNotification: insert with isRead defaulting to 0 and
createdAt defaulting to the current time. -/
def createNotification (now : Int) (n : InsertNotification) (s : State) : State × Notification :=
  let notif : Notification :=
    { id := s.nextNotificationId, type := n.type, title := n.title,
      message := n.message, priority := n.priority, isRead := 0,
      relatedId := n.relatedId, createdAt := now }
  let s2 : State :=
    { s with notifications := s.notifications ++ [notif],
             nextNotificationId := s.nextNotificationId + 1 }
  (s2, notif)

/-! ### POST /api/assignments (server/routes.ts lines 128-159) -/

/-- Outcome of POST /api/assignments, one constructor per distinct response. -/
inductive AssignmentResult where
  | validationError
  | notFound
  | insufficientQuantity (available : Int) (message : String)
  | created (a : Assignment)
deriving DecidableEq

/-- HTTP status of each POST /api/assignments outcome as sent by the route. -/
def assignmentStatus : AssignmentResult → Nat
  | .validationError => 400
  | .notFound => 404
  | .insufficientQuantity _ _ => 400
  | .created _ => 200

/-- The 400 message of the insufficient-quantity branch, reporting the
current available count. -/
def insufficientMessage (available : Int) : String :=
  "Insufficient quantity. Only " ++ toString available ++ " items available."

/-- POST /api/assignments: parse, look the item up, compare quantity against
quantityAvailable, then create the assignment and decrement the quantity. -/
def postAssignment (r : RawAssignment) (s : State) : State × AssignmentResult :=
  match parseAssignment r with
  | none => (s, .validationError)
  | some v =>
    match getItemById s v.itemId with
    | none => (s, .notFound)
    | some item =>
      if item.quantityAvailable < v.quantity then
        (s, .insufficientQuantity item.quantityAvailable (insufficientMessage item.quantityAvailable))
      else
        let p := createAssignment s v
        let s2 := (updateItemQuantity p.1 v.itemId (item.quantityAvailable - v.quantity)).1
        (s2, .created p.2)

/-! ### Helper lemmas -/

lemma find?_update_quantity (l : List Item) (id : Nat) (qa : Int) (item : Item)
    (h : l.find? (fun i => i.id == id) = some item) :
    (l.map (fun i => if i.id == id then { i with quantityAvailable := qa } else i)).find?
        (fun i => i.id == id) = some { item with quantityAvailable := qa } := by
  induction l with
  | nil => simp at h
  | cons a t ih =>
    by_cases ha : (a.id == id) = true
    · have h1 : (a :: t).find? (fun i => i.id == id) = some a :=
        List.find?_cons_of_pos _ ha
      rw [h1] at h
      injection h with h
      subst h
      simp only [List.map_cons, if_pos ha]
      exact List.find?_cons_of_pos _ ha
    · have h1 : (a :: t).find? (fun i => i.id == id) = t.find? (fun i => i.id == id) :=
        List.find?_cons_of_neg _ ha
      rw [h1] at h
      simp only [List.map_cons, if_neg ha]
      have h2 : (a :: t.map (fun i => if i.id == id then { i with quantityAvailable := qa } else i)).find?
            (fun i => i.id == id)
          = (t.map (fun i => if i.id == id then { i with quantityAvailable := qa } else i)).find?
            (fun i => i.id == id) :=
        List.find?_cons_of_neg _ ha
      rw [h2]
      exact ih h

/-- C1 demo: one chair with 3 available. -/
def demoItem : Item :=
  { id := 1, name := "Chair", category := "Furniture", quantityPurchased := 10,
    quantityAvailable := 3, unitPrice := 50, invoiceId := 1 }

/-- A state holding just demoItem. -/
def demoState : State :=
  { initialState with items := [demoItem], nextItemId := 2 }

/-- A well-formed assignment request against demoItem for all 3 units. -/
def demoRawAssignment : RawAssignment :=
  { itemId := some 1, quantity := some 3, assignedTo := some "Ana",
    reason := none, assignmentDate := some "2024-01-01" }

/-- C1: a POST /api/assignments request whose item exists and whose quantity
is at most quantityAvailable persists a new Assignment record and decreases
the quantityAvailable of the item by exactly the requested quantity; when
quantity equals quantityAvailable the result is 0. -/
theorem assignment_success_decrements (r : RawAssignment) (s : State)
    (v : InsertAssignment) (item : Item)
    (hp : parseAssignment r = some v)
    (hi : getItemById s v.itemId = some item)
    (hq : v.quantity ≤ item.quantityAvailable) :
    (postAssignment r s).2 = AssignmentResult.created
        { id := s.nextAssignmentId, itemId := v.itemId, quantity := v.quantity,
          assignedTo := v.assignedTo, reason := v.reason, assignmentDate := v.assignmentDate }
    ∧ (postAssignment r s).1.assignments = s.assignments ++
        [{ id := s.nextAssignmentId, itemId := v.itemId, quantity := v.quantity,
           assignedTo := v.assignedTo, reason := v.reason, assignmentDate := v.assignmentDate }]
    ∧ getItemById (postAssignment r s).1 v.itemId
        = some { item with quantityAvailable := item.quantityAvailable - v.quantity }
    ∧ (v.quantity = item.quantityAvailable →
        getItemById (postAssignment r s).1 v.itemId = some { item with quantityAvailable := 0 }) := by
  have hlt : ¬ (item.quantityAvailable < v.quantity) := not_lt.mpr hq
  have hfind : s.items.find? (fun i => i.id == v.itemId) = some item := hi
  have hmain : getItemById (postAssignment r s).1 v.itemId
      = some { item with quantityAvailable := item.quantityAvailable - v.quantity } := by
    simp only [postAssignment, hp, hi, if_neg hlt, createAssignment, updateItemQuantity]
    exact find?_update_quantity s.items v.itemId _ item hfind
  refine ⟨?_, ?_, hmain, ?_⟩
  · simp only [postAssignment, hp, hi, if_neg hlt, createAssignment, updateItemQuantity]
  · simp only [postAssignment, hp, hi, if_neg hlt, createAssignment, updateItemQuantity]
  · intro he
    rw [hmain, he, sub_self]

/-- C1 witness: assigning all 3 available chairs succeeds and leaves 0. -/
theorem assignment_success_decrements_witness :
    (parseAssignment demoRawAssignment = some
        { itemId := 1, quantity := 3, assignedTo := "Ana", reason := none,
          assignmentDate := "2024-01-01" }
      ∧ getItemById demoState 1 = some demoItem
      ∧ (3 : Int) ≤ demoItem.quantityAvailable)
    ∧ ((postAssignment demoRawAssignment demoState).2 = AssignmentResult.created
        { id := 1, itemId := 1, quantity := 3, assignedTo := "Ana", reason := none,
          assignmentDate := "2024-01-01" }
      ∧ (postAssignment demoRawAssignment demoState).1.assignments = [] ++
        [{ id := 1, itemId := 1, quantity := 3, assignedTo := "Ana", reason := none,
           assignmentDate := "2024-01-01" }]
      ∧ getItemById (postAssignment demoRawAssignment demoState).1 1
          = some { demoItem with quantityAvailable := demoItem.quantityAvailable - 3 }
      ∧ ((3 : Int) = demoItem.quantityAvailable →
          getItemById (postAssignment demoRawAssignment demoState).1 1
            = some { demoItem with quantityAvailable := 0 })) :=
  ⟨⟨by decide, by decide, by decide⟩,
    assignment_success_decrements demoRawAssignment demoState
      { itemId := 1, quantity := 3, assignedTo := "Ana", reason := none,
        assignmentDate := "2024-01-01" }
      demoItem (by decide) (by decide) (by decide)⟩

/-- A request for 5 units of demoItem (only 3 available). -/
def demoRawOverAssignment : RawAssignment :=
  { demoRawAssignment with quantity := some 5 }

/-- A request naming a missing item id. -/
def demoRawMissingItem : RawAssignment :=
  { demoRawAssignment with itemId := some 99 }

/-- C2: POST /api/assignments responds 404 notFound when the item id is
absent and 400 insufficientQuantity carrying the current available count when
quantity exceeds quantityAvailable; in both cases the state is returned
unchanged, so no Assignment is created and no quantityAvailable moves. -/
theorem assignment_failure_no_change (r : RawAssignment) (s : State)
    (v : InsertAssignment) (hp : parseAssignment r = some v) :
    (getItemById s v.itemId = none →
      postAssignment r s = (s, AssignmentResult.notFound)
      ∧ assignmentStatus (postAssignment r s).2 = 404)
    ∧ (∀ item : Item, getItemById s v.itemId = some item →
        item.quantityAvailable < v.quantity →
        postAssignment r s = (s, AssignmentResult.insufficientQuantity
            item.quantityAvailable (insufficientMessage item.quantityAvailable))
        ∧ assignmentStatus (postAssignment r s).2 = 400) := by
  constructor
  · intro hn
    have he : postAssignment r s = (s, AssignmentResult.notFound) := by
      simp only [postAssignment, hp, hn]
    exact ⟨he, by rw [he]; rfl⟩
  · intro item hi hlt
    have he : postAssignment r s = (s, AssignmentResult.insufficientQuantity
        item.quantityAvailable (insufficientMessage item.quantityAvailable)) := by
      simp only [postAssignment, hp, hi, if_pos hlt]
    exact ⟨he, by rw [he]; rfl⟩

/-- C2 witness: a missing item gives 404 and an over-assignment gives the
400 message with the remaining count, both leaving the state unchanged. -/
theorem assignment_failure_no_change_witness :
    (parseAssignment demoRawMissingItem = some
        { itemId := 99, quantity := 3, assignedTo := "Ana", reason := none,
          assignmentDate := "2024-01-01" }
      ∧ getItemById demoState 99 = none
      ∧ parseAssignment demoRawOverAssignment = some
        { itemId := 1, quantity := 5, assignedTo := "Ana", reason := none,
          assignmentDate := "2024-01-01" }
      ∧ getItemById demoState 1 = some demoItem
      ∧ demoItem.quantityAvailable < 5)
    ∧ (postAssignment demoRawMissingItem demoState = (demoState, AssignmentResult.notFound)
      ∧ assignmentStatus (postAssignment demoRawMissingItem demoState).2 = 404)
    ∧ (postAssignment demoRawOverAssignment demoState
        = (demoState, AssignmentResult.insufficientQuantity demoItem.quantityAvailable
            (insufficientMessage demoItem.quantityAvailable))
      ∧ assignmentStatus (postAssignment demoRawOverAssignment demoState).2 = 400) :=
  ⟨⟨by decide, by decide, by decide, by decide, by decide⟩,
    (assignment_failure_no_change demoRawMissingItem demoState
      { itemId := 99, quantity := 3, assignedTo := "Ana", reason := none,
        assignmentDate := "2024-01-01" } (by decide)).1 (by decide),
    (assignment_failure_no_change demoRawOverAssignment demoState
      { itemId := 1, quantity := 5, assignedTo := "Ana", reason := none,
        assignmentDate := "2024-01-01" } (by decide)).2 demoItem (by decide) (by decide)⟩

/-! ### POST /api/items (server/routes.ts lines 87-106)

The route takes req.body.items when present, else the single object wrapped
in a list, then validates and persists the entries one at a time in order;
a ZodError anywhere aborts the loop with a 400 response, keeping the items
already persisted. -/

/-- Outcome of POST /api/items. -/
inductive ItemsResult where
  | validationError
  | created (items : List Item)
deriving DecidableEq

/-- HTTP status of each POST /api/items outcome. -/
def itemsStatus : ItemsResult → Nat
  | .validationError => 400
  | .created _ => 200

/-- The for loop of POST /api/items: validate then persist each entry. -/
def postItemsLoop : List RawItem → State → List Item → State × ItemsResult
  | [], s, acc => (s, .created acc.reverse)
  | r :: rest, s, acc =>
    match parseItem r with
    | none => (s, .validationError)
    | some v =>
      let p := createItem s v
      postItemsLoop rest p.1 (p.2 :: acc)

/-- POST /api/items on a batch (a single object is the one-element batch). -/
def postItems (rs : List RawItem) (s : State) : State × ItemsResult :=
  postItemsLoop rs s []

/-- Every state reached by the items loop extends the starting items list
only with items whose quantityAvailable equals quantityPurchased. -/
lemma postItemsLoop_items (rs : List RawItem) :
    ∀ (s : State) (acc : List Item), ∃ ex : List Item,
      (postItemsLoop rs s acc).1.items = s.items ++ ex
      ∧ ∀ i ∈ ex, i.quantityAvailable = i.quantityPurchased := by
  induction rs with
  | nil =>
    intro s acc
    exact ⟨[], by simp [postItemsLoop], by simp⟩
  | cons r rest ih =>
    intro s acc
    cases hp : parseItem r with
    | none =>
      exact ⟨[], by simp [postItemsLoop, hp], by simp⟩
    | some v =>
      obtain ⟨ex, hex, hall⟩ := ih (createItem s v).1 ((createItem s v).2 :: acc)
      refine ⟨(createItem s v).2 :: ex, ?_, ?_⟩
      · simp only [postItemsLoop, hp]
        rw [hex]
        simp [createItem]
      · intro i hi
        rcases List.mem_cons.mp hi with h | h
        · subst h; rfl
        · exact hall i h

/-- parseItem never looks at the client-supplied quantityAvailable field. -/
lemma parseItem_ignores_quantityAvailable (r : RawItem) (q : Option Int) :
    parseItem { r with quantityAvailable := q } = parseItem r := rfl

/-- The whole items route is insensitive to client quantityAvailable. -/
lemma postItemsLoop_ignores_quantityAvailable (rs : List RawItem) (q : Option Int) :
    ∀ (s : State) (acc : List Item),
      postItemsLoop (rs.map (fun r => { r with quantityAvailable := q })) s acc
        = postItemsLoop rs s acc := by
  induction rs with
  | nil => intro s acc; rfl
  | cons r rest ih =>
    intro s acc
    simp only [List.map_cons, postItemsLoop, parseItem_ignores_quantityAvailable]
    cases hp : parseItem r with
    | none => rfl
    | some v => exact ih _ _

/-- C4: every item persisted by POST /api/items has
quantityAvailable = quantityPurchased, and the result of the route does not
depend on any client-supplied quantityAvailable value, for single-object
requests (one-element batch) and batches alike. -/
theorem item_creation_forces_available (rs : List RawItem) (s : State) (q : Option Int) :
    (∀ i ∈ (postItems rs s).1.items, i ∈ s.items ∨ i.quantityAvailable = i.quantityPurchased)
    ∧ postItems (rs.map (fun r => { r with quantityAvailable := q })) s = postItems rs s := by
  constructor
  · intro i hi
    obtain ⟨ex, hex, hall⟩ := postItemsLoop_items rs s []
    rw [postItems] at hi
    rw [hex] at hi
    rcases List.mem_append.mp hi with h | h
    · exact Or.inl h
    · exact Or.inr (hall i h)
  · exact postItemsLoop_ignores_quantityAvailable rs q s []

/-- C10: the batch POST /api/items is not atomic. If every entry of a prefix
validates and the next entry fails validation, the response is a 400
validation error while the state is exactly the state after persisting the
whole valid prefix, whose created items remain. -/
theorem batch_items_not_atomic (good : List RawItem) (bad : RawItem) (rest : List RawItem)
    (s : State) (hgood : ∀ r ∈ good, (parseItem r).isSome = true)
    (hbad : parseItem bad = none) :
    (postItems (good ++ bad :: rest) s).2 = ItemsResult.validationError
    ∧ itemsStatus (postItems (good ++ bad :: rest) s).2 = 400
    ∧ (postItems (good ++ bad :: rest) s).1 = (postItems good s).1
    ∧ ∃ ex : List Item, (postItems good s).1.items = s.items ++ ex
        ∧ ex.length = good.length
        ∧ ∀ i ∈ ex, i.quantityAvailable = i.quantityPurchased := by
  have key : ∀ (g : List RawItem) (st : State) (acc : List Item),
      (∀ r ∈ g, (parseItem r).isSome = true) →
      (postItemsLoop (g ++ bad :: rest) st acc).2 = ItemsResult.validationError
      ∧ (postItemsLoop (g ++ bad :: rest) st acc).1 = (postItemsLoop g st acc).1
      ∧ ∃ ex : List Item, (postItemsLoop g st acc).1.items = st.items ++ ex
          ∧ ex.length = g.length
          ∧ ∀ i ∈ ex, i.quantityAvailable = i.quantityPurchased := by
    intro g
    induction g with
    | nil =>
      intro st acc _
      refine ⟨?_, ?_, ⟨[], by simp [postItemsLoop], by simp, by simp⟩⟩
      · simp [postItemsLoop, hbad]
      · simp [postItemsLoop, hbad]
    | cons r grest ih =>
      intro st acc hg
      have hr : (parseItem r).isSome = true := hg r (List.mem_cons_self r grest)
      obtain ⟨v, hv⟩ := Option.isSome_iff_exists.mp hr
      have hgrest : ∀ x ∈ grest, (parseItem x).isSome = true :=
        fun x hx => hg x (List.mem_cons_of_mem r hx)
      obtain ⟨h1, h2, ex, hex, hlen, hall⟩ :=
        ih (createItem st v).1 ((createItem st v).2 :: acc) hgrest
      refine ⟨?_, ?_, ?_⟩
      · simpa only [List.cons_append, postItemsLoop, hv] using h1
      · simp only [List.cons_append, postItemsLoop, hv]
        exact h2
      · refine ⟨(createItem st v).2 :: ex, ?_, ?_, ?_⟩
        · simp only [postItemsLoop, hv]
          rw [hex]
          simp [createItem]
        · simp [hlen]
        · intro i hi
          rcases List.mem_cons.mp hi with h | h
          · subst h; rfl
          · exact hall i h
  obtain ⟨h1, h2, hex⟩ := key good s [] hgood
  have h1b : (postItems (good ++ bad :: rest) s).2 = ItemsResult.validationError := h1
  exact ⟨h1b, by rw [h1b]; rfl, h2, hex⟩

/-! ### Traces of API calls, for the quantity invariant (spec section 8) -/

/-- An API call that can touch item quantities: POST /api/items (single object
modelled as a one-element batch) or POST /api/assignments. -/
inductive ApiEvent where
  | postItems (rs : List RawItem)
  | postAssignment (r : RawAssignment)
deriving DecidableEq

/-- State transition of one API call (the response is dropped). -/
def applyEvent (s : State) (e : ApiEvent) : State :=
  match e with
  | .postItems rs => (postItems rs s).1
  | .postAssignment r => (postAssignment r s).1

/-- State after a sequence of API calls. -/
def runEvents (es : List ApiEvent) (s : State) : State :=
  es.foldl applyEvent s

/-- Nonnegativity of the quantity fields a request carries: quantityPurchased
for item creation, quantity for assignment creation. The server itself never
checks either sign. -/
def eventNonneg : ApiEvent → Prop
  | .postItems rs => ∀ r ∈ rs, 0 ≤ r.quantityPurchased.getD 0
  | .postAssignment r => 0 ≤ r.quantity.getD 0

instance : DecidablePred eventNonneg := fun e =>
  match e with
  | .postItems rs => inferInstanceAs (Decidable (∀ r ∈ rs, 0 ≤ r.quantityPurchased.getD 0))
  | .postAssignment r => inferInstanceAs (Decidable (0 ≤ r.quantity.getD 0))

/-- Invariant carried through traces: item ids are below the serial counter,
items are determined by their id, and quantities are in range. -/
def StateInv (s : State) : Prop :=
  (∀ i ∈ s.items, i.id < s.nextItemId)
  ∧ (∀ i ∈ s.items, ∀ j ∈ s.items, i.id = j.id → i = j)
  ∧ ∀ i ∈ s.items, 0 ≤ i.quantityAvailable ∧ i.quantityAvailable ≤ i.quantityPurchased

lemma stateInv_initial : StateInv initialState := by
  refine ⟨?_, ?_, ?_⟩ <;> intro i hi <;> simp [initialState] at hi

lemma parseItem_quantityPurchased {r : RawItem} {v : InsertItem}
    (hp : parseItem r = some v) : r.quantityPurchased = some v.quantityPurchased := by
  rcases r with ⟨n, c, qp, qa, up, iid⟩
  cases n <;> cases c <;> cases qp <;> cases up <;> cases iid <;>
    simp [parseItem] at hp ⊢ <;> rw [← hp]

lemma parseAssignment_quantity {r : RawAssignment} {v : InsertAssignment}
    (hp : parseAssignment r = some v) : r.quantity = some v.quantity := by
  rcases r with ⟨iid, q, ato, re, ad⟩
  cases iid <;> cases q <;> cases ato <;> cases ad <;>
    simp [parseAssignment] at hp ⊢ <;> rw [← hp]

lemma stateInv_createItem (s : State) (v : InsertItem) (hinv : StateInv s)
    (hq : 0 ≤ v.quantityPurchased) : StateInv (createItem s v).1 := by
  obtain ⟨hbound, hinj, hok⟩ := hinv
  refine ⟨?_, ?_, ?_⟩
  · intro i hi
    simp only [createItem, List.mem_append, List.mem_singleton] at hi
    rcases hi with h | h
    · exact Nat.lt_succ_of_lt (hbound i h)
    · subst h; exact Nat.lt_succ_self _
  · intro i hi j hj hij
    simp only [createItem, List.mem_append, List.mem_singleton] at hi hj
    rcases hi with hi | hi <;> rcases hj with hj | hj
    · exact hinj i hi j hj hij
    · exfalso
      have h1 := hbound i hi
      rw [hij, hj] at h1
      exact absurd h1 (lt_irrefl _)
    · exfalso
      have h1 := hbound j hj
      rw [← hij, hi] at h1
      exact absurd h1 (lt_irrefl _)
    · rw [hi, hj]
  · intro i hi
    simp only [createItem, List.mem_append, List.mem_singleton] at hi
    rcases hi with h | h
    · exact hok i h
    · subst h; exact ⟨hq, le_refl _⟩

lemma stateInv_postItemsLoop (rs : List RawItem) :
    ∀ (s : State) (acc : List Item), StateInv s →
      (∀ r ∈ rs, 0 ≤ r.quantityPurchased.getD 0) →
      StateInv (postItemsLoop rs s acc).1 := by
  induction rs with
  | nil => intro s acc hinv _; exact hinv
  | cons r rest ih =>
    intro s acc hinv hq
    cases hp : parseItem r with
    | none => simpa only [postItemsLoop, hp] using hinv
    | some v =>
      have hq0 : 0 ≤ v.quantityPurchased := by
        have h1 := hq r (List.mem_cons_self r rest)
        rw [parseItem_quantityPurchased hp] at h1
        simpa using h1
      simp only [postItemsLoop, hp]
      exact ih _ _ (stateInv_createItem s v hinv hq0)
        (fun x hx => hq x (List.mem_cons_of_mem r hx))

lemma stateInv_postAssignment (r : RawAssignment) (s : State) (hinv : StateInv s)
    (hq : 0 ≤ r.quantity.getD 0) : StateInv (postAssignment r s).1 := by
  cases hp : parseAssignment r with
  | none => simpa only [postAssignment, hp] using hinv
  | some v =>
    have hq0 : 0 ≤ v.quantity := by
      have h1 := hq
      rw [parseAssignment_quantity hp] at h1
      simpa using h1
    cases hi : getItemById s v.itemId with
    | none => simpa only [postAssignment, hp, hi] using hinv
    | some item =>
      by_cases hlt : item.quantityAvailable < v.quantity
      · simpa only [postAssignment, hp, hi, if_pos hlt] using hinv
      · obtain ⟨hbound, hinj, hok⟩ := hinv
        have hmem : item ∈ s.items := List.mem_of_find?_eq_some hi
        have hid : item.id = v.itemId := by
          have h1 := List.find?_some hi
          simpa using h1
        have hle : v.quantity ≤ item.quantityAvailable := not_lt.mp hlt
        simp only [postAssignment, hp, hi, if_neg hlt, createAssignment, updateItemQuantity]
        refine ⟨?_, ?_, ?_⟩
        · intro i hi2
          simp only [List.mem_map] at hi2
          obtain ⟨i0, hi0, hmap⟩ := hi2
          have : i.id = i0.id := by
            rw [← hmap]
            by_cases hc : (i0.id == v.itemId) = true <;> simp [hc]
          rw [this]
          exact hbound i0 hi0
        · intro i hi2 j hj2 hij
          simp only [List.mem_map] at hi2 hj2
          obtain ⟨i0, hi0, hmi⟩ := hi2
          obtain ⟨j0, hj0, hmj⟩ := hj2
          have hidi : i.id = i0.id := by
            rw [← hmi]
            by_cases hc : (i0.id == v.itemId) = true <;> simp [hc]
          have hidj : j.id = j0.id := by
            rw [← hmj]
            by_cases hc : (j0.id == v.itemId) = true <;> simp [hc]
          have : i0 = j0 := hinj i0 hi0 j0 hj0 (by rw [← hidi, ← hidj, hij])
          rw [← hmi, ← hmj, this]
        · intro i hi2
          simp only [List.mem_map] at hi2
          obtain ⟨i0, hi0, hmap⟩ := hi2
          by_cases hc : (i0.id == v.itemId) = true
          · have hi0id : i0.id = v.itemId := by simpa using hc
            have he : i0 = item := hinj i0 hi0 item hmem (by rw [hi0id, hid])
            rw [← hmap, if_pos hc]
            constructor
            · exact sub_nonneg.mpr hle
            · have h2 := (hok item hmem).2
              have h3 : item.quantityAvailable - v.quantity ≤ item.quantityAvailable :=
                sub_le_self _ hq0
              calc item.quantityAvailable - v.quantity
                  ≤ item.quantityAvailable := h3
                _ ≤ item.quantityPurchased := h2
                _ = i0.quantityPurchased := by rw [he]
          · rw [← hmap, if_neg hc]
            exact hok i0 hi0

lemma stateInv_runEvents (es : List ApiEvent) :
    ∀ s : State, StateInv s → (∀ e ∈ es, eventNonneg e) →
      StateInv (runEvents es s) := by
  induction es with
  | nil => intro s hinv _; exact hinv
  | cons e rest ih =>
    intro s hinv hall
    have he : eventNonneg e := hall e (List.mem_cons_self e rest)
    have hrest : ∀ x ∈ rest, eventNonneg x := fun x hx => hall x (List.mem_cons_of_mem e hx)
    have hstep : StateInv (applyEvent s e) := by
      cases e with
      | postItems rs => exact stateInv_postItemsLoop rs s [] hinv he
      | postAssignment r => exact stateInv_postAssignment r s hinv he
    exact ih (applyEvent s e) hstep hrest

/-- A trace the server accepts in full: create an item with
quantityPurchased 2, assign a quantity of -3 against it (the guard
quantityAvailable < quantity does not fire for negative quantities), and
create an item with quantityPurchased -1. -/
def demoBadEvents : List ApiEvent :=
  [ApiEvent.postItems
      [{ name := some "Chair", category := some "Furniture",
         quantityPurchased := some 2, quantityAvailable := none,
         unitPrice := some 10, invoiceId := some 1 }],
   ApiEvent.postAssignment
      { itemId := some 1, quantity := some (-3), assignedTo := some "Bo",
        reason := none, assignmentDate := some "2024-01-01" },
   ApiEvent.postItems
      [{ name := some "Lamp", category := some "Furniture",
         quantityPurchased := some (-1), quantityAvailable := none,
         unitPrice := some 5, invoiceId := some 1 }]]

/-- C3 counterexample: after a sequence of item creations and assignment
creations all accepted by the routes, the invariant
0 ≤ quantityAvailable ≤ quantityPurchased fails (the accepted quantity -3
raises quantityAvailable to 5 > 2, and the accepted quantityPurchased -1
creates an item with quantityAvailable -1 < 0). -/
theorem quantity_invariant_counterexample :
    ¬ ∀ i ∈ (runEvents demoBadEvents initialState).items,
        0 ≤ i.quantityAvailable ∧ i.quantityAvailable ≤ i.quantityPurchased := by
  decide

/-- C3 amended: after every sequence of item creations whose
quantityPurchased is nonnegative and assignment requests whose quantity is
nonnegative (whether or not they are accepted), every item satisfies
0 ≤ quantityAvailable ≤ quantityPurchased. -/
theorem quantity_invariant_amended (es : List ApiEvent)
    (h : ∀ e ∈ es, eventNonneg e) :
    ∀ i ∈ (runEvents es initialState).items,
      0 ≤ i.quantityAvailable ∧ i.quantityAvailable ≤ i.quantityPurchased :=
  (stateInv_runEvents es initialState stateInv_initial h).2.2

/-- A fully nonnegative trace: buy 2 chairs, assign 1. -/
def demoGoodEvents : List ApiEvent :=
  [ApiEvent.postItems
      [{ name := some "Chair", category := some "Furniture",
         quantityPurchased := some 2, quantityAvailable := none,
         unitPrice := some 10, invoiceId := some 1 }],
   ApiEvent.postAssignment
      { itemId := some 1, quantity := some 1, assignedTo := some "Bo",
        reason := none, assignmentDate := some "2024-01-01" }]

/-- C3 amended witness: the invariant holds along the nonnegative demo trace. -/
theorem quantity_invariant_amended_witness :
    (∀ e ∈ demoGoodEvents, eventNonneg e)
    ∧ ∀ i ∈ (runEvents demoGoodEvents initialState).items,
        0 ≤ i.quantityAvailable ∧ i.quantityAvailable ≤ i.quantityPurchased :=
  ⟨by decide, quantity_invariant_amended demoGoodEvents (by decide)⟩

/-! ### GET /api/items/low-stock (server/routes.ts lines 193-201) -/

/-- The low-stock route: filter quantityAvailable < 5 with no lower bound. -/
def getLowStockItems (s : State) : List Item :=
  s.items.filter (fun i => decide (i.quantityAvailable < 5))

/-- Modelled from the spec glossary, for comparison with the route: low stock
means 0 < quantityAvailable < 5. -/
def specLowStock (i : Item) : Prop :=
  0 < i.quantityAvailable ∧ i.quantityAvailable < 5

instance (i : Item) : Decidable (specLowStock i) :=
  inferInstanceAs (Decidable (0 < i.quantityAvailable ∧ i.quantityAvailable < 5))

/-- An out-of-stock pen: quantityAvailable 0. -/
def demoOutOfStockItem : Item :=
  { id := 2, name := "Pen", category := "Stationery", quantityPurchased := 5,
    quantityAvailable := 0, unitPrice := 1, invoiceId := 1 }

/-- A state holding only the out-of-stock pen. -/
def demoStateOut : State :=
  { initialState with items := [demoOutOfStockItem], nextItemId := 3 }

/-- C8 counterexample: GET /api/items/low-stock returns an item with
quantityAvailable 0, which is not low stock under the spec definition
0 < quantityAvailable < 5. -/
theorem lowstock_route_counterexample :
    demoOutOfStockItem ∈ getLowStockItems demoStateOut
    ∧ ¬ specLowStock demoOutOfStockItem := by
  decide

/-- C8 amended: GET /api/items/low-stock returns exactly the stored items
with quantityAvailable < 5, including out-of-stock items with
quantityAvailable ≤ 0, which the spec definition of low stock excludes. -/
theorem lowstock_route_amended (s : State) (i : Item) :
    i ∈ getLowStockItems s ↔ i ∈ s.items ∧ i.quantityAvailable < 5 := by
  simp [getLowStockItems, List.mem_filter]

/-! ### C9: no positivity bound on assignment quantity -/

/-- A request for zero units of demoItem. -/
def demoRawZeroAssignment : RawAssignment :=
  { demoRawAssignment with quantity := some 0 }

/-- C9 counterexample: a POST /api/assignments request with quantity 0
against an existing item with sufficient stock is not rejected; it is
accepted and persists an Assignment record with quantity 0. -/
theorem assignment_zero_quantity_counterexample :
    (postAssignment demoRawZeroAssignment demoState).2 ≠ AssignmentResult.validationError
    ∧ (postAssignment demoRawZeroAssignment demoState).2 = AssignmentResult.created
        { id := 1, itemId := 1, quantity := 0, assignedTo := "Ana", reason := none,
          assignmentDate := "2024-01-01" }
    ∧ (postAssignment demoRawZeroAssignment demoState).1.assignments =
        [{ id := 1, itemId := 1, quantity := 0, assignedTo := "Ana", reason := none,
           assignmentDate := "2024-01-01" }] := by
  decide

/-- C9 amended: insertAssignmentSchema imposes no positivity bound, so a
POST /api/assignments request with quantity ≤ 0 against an existing item is
accepted whenever quantity ≤ quantityAvailable, and persists an Assignment
record carrying that non-positive quantity; a strictly negative quantity
even increases quantityAvailable. -/
theorem assignment_nonpositive_accepted (r : RawAssignment) (s : State)
    (v : InsertAssignment) (item : Item)
    (hp : parseAssignment r = some v)
    (hi : getItemById s v.itemId = some item)
    (hq : v.quantity ≤ 0) (hq2 : v.quantity ≤ item.quantityAvailable) :
    (postAssignment r s).2 = AssignmentResult.created
        { id := s.nextAssignmentId, itemId := v.itemId, quantity := v.quantity,
          assignedTo := v.assignedTo, reason := v.reason, assignmentDate := v.assignmentDate }
    ∧ (postAssignment r s).1.assignments = s.assignments ++
        [{ id := s.nextAssignmentId, itemId := v.itemId, quantity := v.quantity,
           assignedTo := v.assignedTo, reason := v.reason, assignmentDate := v.assignmentDate }]
    ∧ getItemById (postAssignment r s).1 v.itemId
        = some { item with quantityAvailable := item.quantityAvailable - v.quantity }
    ∧ item.quantityAvailable ≤ item.quantityAvailable - v.quantity := by
  obtain ⟨h1, h2, h3, _⟩ := assignment_success_decrements r s v item hp hi hq2
  exact ⟨h1, h2, h3, by omega⟩

/-- A request for -2 units of demoItem. -/
def demoRawNegativeAssignment : RawAssignment :=
  { demoRawAssignment with quantity := some (-2) }

/-- C9 amended witness: quantity -2 against 3 available is accepted and
raises quantityAvailable from 3 to 5. -/
theorem assignment_nonpositive_accepted_witness :
    (parseAssignment demoRawNegativeAssignment = some
        { itemId := 1, quantity := -2, assignedTo := "Ana", reason := none,
          assignmentDate := "2024-01-01" }
      ∧ getItemById demoState 1 = some demoItem
      ∧ (-2 : Int) ≤ 0 ∧ (-2 : Int) ≤ demoItem.quantityAvailable)
    ∧ ((postAssignment demoRawNegativeAssignment demoState).2 = AssignmentResult.created
        { id := 1, itemId := 1, quantity := -2, assignedTo := "Ana", reason := none,
          assignmentDate := "2024-01-01" }
      ∧ (postAssignment demoRawNegativeAssignment demoState).1.assignments = [] ++
        [{ id := 1, itemId := 1, quantity := -2, assignedTo := "Ana", reason := none,
           assignmentDate := "2024-01-01" }]
      ∧ getItemById (postAssignment demoRawNegativeAssignment demoState).1 1
          = some { demoItem with quantityAvailable := demoItem.quantityAvailable - (-2) }
      ∧ demoItem.quantityAvailable ≤ demoItem.quantityAvailable - (-2)) :=
  ⟨⟨by decide, by decide, by decide, by decide⟩,
    assignment_nonpositive_accepted demoRawNegativeAssignment demoState
      { itemId := 1, quantity := -2, assignedTo := "Ana", reason := none,
        assignmentDate := "2024-01-01" }
      demoItem (by decide) (by decide) (by decide) (by decide)⟩

/-! ### Notification read-state (server/storage.ts lines 248-262) -/

/-- DatabaseStorage.markNotificationAsRead: update set isRead = 1 where
id = id, returning the updated row (undefined when the id is absent, never
an error). -/
def markNotificationAsRead (id : Nat) (s : State) : State × Option Notification :=
  let updated := s.notifications.map
    (fun n => if n.id == id then { n with isRead := 1 } else n)
  ({ s with notifications := updated }, updated.find? (fun n => n.id == id))

/-- DatabaseStorage.markAllNotificationsAsRead: update set isRead = 1 where
isRead = 0. -/
def markAllNotificationsAsRead (s : State) : State :=
  let updated := s.notifications.map
    (fun n => if n.isRead == 0 then { n with isRead := 1 } else n)
  { s with notifications := updated }

/-- DatabaseStorage.getUnreadNotifications: the notifications with
isRead = 0 (the descending createdAt ordering is immaterial here). -/
def getUnreadNotifications (s : State) : List Notification :=
  s.notifications.filter (fun n => n.isRead == 0)

/-- C7: mark-one-read leaves every notification with the target id read;
re-marking when every notification of that id is already read changes
nothing and still returns a row rather than an error; mark-all-read leaves
zero unread notifications; and mark-all-read is idempotent. -/
theorem notification_read_monotonic (s : State) (n : Notification)
    (hn : n ∈ s.notifications) :
    (∀ m ∈ (markNotificationAsRead n.id s).1.notifications, m.id = n.id → m.isRead = 1)
    ∧ ((∀ m ∈ s.notifications, m.id = n.id → m.isRead = 1) →
        (markNotificationAsRead n.id s).1 = s
        ∧ ((markNotificationAsRead n.id s).2.isSome = true))
    ∧ getUnreadNotifications (markAllNotificationsAsRead s) = []
    ∧ markAllNotificationsAsRead (markAllNotificationsAsRead s) = markAllNotificationsAsRead s := by
  refine ⟨?_, ?_, ?_, ?_⟩
  · intro m hm hmid
    simp only [markNotificationAsRead, List.mem_map] at hm
    obtain ⟨m0, _, hmap⟩ := hm
    by_cases hc : (m0.id == n.id) = true
    · rw [← hmap, if_pos hc]
    · exfalso
      rw [← hmap, if_neg hc] at hmid
      exact hc (by simpa using hmid)
  · intro hall
    constructor
    · have hmap : s.notifications.map
          (fun m => if m.id == n.id then { m with isRead := 1 } else m) = s.notifications := by
        have hcong : s.notifications.map
              (fun m => if m.id == n.id then { m with isRead := 1 } else m)
            = s.notifications.map id := by
          apply List.map_congr_left
          intro m hm
          by_cases hc : (m.id == n.id) = true
          · have h1 : m.isRead = 1 := hall m hm (by simpa using hc)
            rw [if_pos hc, ← h1]
            rfl
          · rw [if_neg hc]
            rfl
        rw [hcong, List.map_id]
      simp only [markNotificationAsRead, hmap]
    · simp only [markNotificationAsRead, List.find?_isSome, List.mem_map]
      refine ⟨if n.id == n.id then { n with isRead := 1 } else n, ⟨n, hn, rfl⟩, ?_⟩
      rw [if_pos (by simp)]
      simp
  · rw [List.eq_nil_iff_forall_not_mem]
    intro m hm
    simp only [getUnreadNotifications, markAllNotificationsAsRead, List.mem_filter,
      List.mem_map] at hm
    obtain ⟨⟨m0, _, hmap⟩, hread⟩ := hm
    by_cases hc : (m0.isRead == 0) = true
    · rw [← hmap, if_pos hc] at hread
      simp at hread
    · rw [← hmap, if_neg hc] at hread
      exact hc hread
  · simp only [markAllNotificationsAsRead, List.map_map]
    congr 1
    apply List.map_congr_left
    intro m _
    by_cases hc : (m.isRead == 0) = true
    · simp only [Function.comp_apply, if_pos hc]
      rw [if_neg (by simp)]
    · simp only [Function.comp_apply, if_neg hc]

/-- Two demo notifications: 7 unread, 8 already read. -/
def demoNotifUnread : Notification :=
  { id := 7, type := "low_stock", title := "Low Stock Alert", message := "m",
    priority := "high", isRead := 0, relatedId := some 1, createdAt := 0 }

/-- The read one. -/
def demoNotifRead : Notification :=
  { id := 8, type := "reorder_suggestion", title := "Reorder Suggestion", message := "m",
    priority := "medium", isRead := 1, relatedId := some 1, createdAt := 0 }

/-- A state holding both demo notifications. -/
def demoStateNotif : State :=
  { initialState with notifications := [demoNotifUnread, demoNotifRead], nextNotificationId := 9 }

/-- C7 witness: marking notification 7 read works, unread count is zero after
mark-all-read, and mark-all-read twice equals mark-all-read once. -/
theorem notification_read_monotonic_witness :
    demoNotifUnread ∈ demoStateNotif.notifications
    ∧ ((∀ m ∈ (markNotificationAsRead demoNotifUnread.id demoStateNotif).1.notifications,
          m.id = demoNotifUnread.id → m.isRead = 1)
      ∧ ((∀ m ∈ demoStateNotif.notifications, m.id = demoNotifUnread.id → m.isRead = 1) →
          (markNotificationAsRead demoNotifUnread.id demoStateNotif).1 = demoStateNotif
          ∧ ((markNotificationAsRead demoNotifUnread.id demoStateNotif).2.isSome = true))
      ∧ getUnreadNotifications (markAllNotificationsAsRead demoStateNotif) = []
      ∧ markAllNotificationsAsRead (markAllNotificationsAsRead demoStateNotif)
          = markAllNotificationsAsRead demoStateNotif) :=
  ⟨by decide, notification_read_monotonic demoStateNotif demoNotifUnread (by decide)⟩

/-! ### C10 witness data -/

/-- A valid raw item; the client-supplied quantityAvailable 999 is ignored. -/
def demoRawItem : RawItem :=
  { name := some "Desk", category := some "Furniture", quantityPurchased := some 4,
    quantityAvailable := some 999, unitPrice := some 120, invoiceId := some 1 }

/-- An invalid raw item: the required name is missing. -/
def demoBadRawItem : RawItem :=
  { demoRawItem with name := none }

/-- C10 witness: a batch of one valid then one invalid item answers 400 yet
keeps the valid item persisted. -/
theorem batch_items_not_atomic_witness :
    ((∀ r ∈ [demoRawItem], (parseItem r).isSome = true) ∧ parseItem demoBadRawItem = none)
    ∧ ((postItems ([demoRawItem] ++ demoBadRawItem :: []) initialState).2
          = ItemsResult.validationError
      ∧ itemsStatus (postItems ([demoRawItem] ++ demoBadRawItem :: []) initialState).2 = 400
      ∧ (postItems ([demoRawItem] ++ demoBadRawItem :: []) initialState).1
          = (postItems [demoRawItem] initialState).1
      ∧ ∃ ex : List Item, (postItems [demoRawItem] initialState).1.items
            = initialState.items ++ ex
          ∧ ex.length = [demoRawItem].length
          ∧ ∀ i ∈ ex, i.quantityAvailable = i.quantityPurchased) :=
  ⟨⟨by decide, by decide⟩,
    batch_items_not_atomic [demoRawItem] demoBadRawItem [] initialState
      (by decide) (by decide)⟩

/-! ### Notification service (server/notification-service.ts) -/

/-- 24 hours in milliseconds, the dedup window of checkLowStock and
checkInvoiceApproval. -/
def h24 : Int := 24 * 60 * 60 * 1000

/-- The dedup lookup: some existing notification of this type for this
related id was created within the window before now. -/
def hasRecent (ns : List Notification) (ty : String) (rid : Nat) (now window : Int) : Bool :=
  ns.any (fun n => n.type == ty && n.relatedId == some rid && decide (now - window < n.createdAt))

/-- The low stock filter of checkLowStock:
quantityAvailable < 5 && quantityAvailable > 0. -/
def isLowStock (i : Item) : Bool :=
  decide (i.quantityAvailable < 5) && decide (0 < i.quantityAvailable)

/-- The notification row checkLowStock inserts for a low stock item. -/
def lowStockInsert (i : Item) : InsertNotification :=
  { type := "low_stock", title := "Low Stock Alert",
    message := i.name ++ " is running low (" ++ toString i.quantityAvailable ++ " remaining)",
    priority := if i.quantityAvailable ≤ 2 then "urgent" else "high",
    relatedId := some i.id }

/-- The for loop of checkLowStock; the dedup lookup re-reads the
notifications table on every iteration. -/
def lowStockLoop (now : Int) : List Item → State → State
  | [], s => s
  | i :: rest, s =>
    if hasRecent s.notifications "low_stock" i.id now h24 then
      lowStockLoop now rest s
    else
      lowStockLoop now rest (createNotification now (lowStockInsert i) s).1

/-- NotificationService.checkLowStock run at time now. -/
def checkLowStock (now : Int) (s : State) : State :=
  lowStockLoop now (s.items.filter isLowStock) s

/-- Number of stored notifications of a type for a related id. -/
def notifCount (ns : List Notification) (ty : String) (rid : Nat) : Nat :=
  ns.countP (fun n => n.type == ty && n.relatedId == some rid)

lemma notifCount_append (ns ms : List Notification) (ty : String) (rid : Nat) :
    notifCount (ns ++ ms) ty rid = notifCount ns ty rid + notifCount ms ty rid :=
  List.countP_append _ _ _

lemma hasRecent_append (ns ms : List Notification) (ty : String) (rid : Nat) (now w : Int) :
    hasRecent (ns ++ ms) ty rid now w
      = (hasRecent ns ty rid now w || hasRecent ms ty rid now w) := by
  simp [hasRecent]

lemma createNotification_notifications (now : Int) (ins : InsertNotification) (s : State) :
    ((createNotification now ins s).1).notifications
      = s.notifications ++
        [{ id := s.nextNotificationId, type := ins.type, title := ins.title,
           message := ins.message, priority := ins.priority, isRead := 0,
           relatedId := ins.relatedId, createdAt := now }] := rfl

lemma notifCount_create_match (now : Int) (ins : InsertNotification) (s : State)
    (ty : String) (rid : Nat) (hty : ins.type = ty) (hrid : ins.relatedId = some rid) :
    notifCount ((createNotification now ins s).1).notifications ty rid
      = notifCount s.notifications ty rid + 1 := by
  rw [createNotification_notifications, notifCount_append]
  have h1 : notifCount
      [{ id := s.nextNotificationId, type := ins.type, title := ins.title,
         message := ins.message, priority := ins.priority, isRead := 0,
         relatedId := ins.relatedId, createdAt := now }] ty rid = 1 := by
    simp [notifCount, hty, hrid]
  rw [h1]

lemma notifCount_create_other (now : Int) (ins : InsertNotification) (s : State)
    (ty : String) (rid : Nat) (h : ins.type ≠ ty ∨ ins.relatedId ≠ some rid) :
    notifCount ((createNotification now ins s).1).notifications ty rid
      = notifCount s.notifications ty rid := by
  rw [createNotification_notifications, notifCount_append]
  have h1 : notifCount
      [{ id := s.nextNotificationId, type := ins.type, title := ins.title,
         message := ins.message, priority := ins.priority, isRead := 0,
         relatedId := ins.relatedId, createdAt := now }] ty rid = 0 := by
    rcases h with h | h <;> simp [notifCount, h]
  rw [h1, Nat.add_zero]

lemma hasRecent_create_other (now now2 w : Int) (ins : InsertNotification) (s : State)
    (ty : String) (rid : Nat) (h : ins.relatedId ≠ some rid) :
    hasRecent ((createNotification now ins s).1).notifications ty rid now2 w
      = hasRecent s.notifications ty rid now2 w := by
  rw [createNotification_notifications, hasRecent_append]
  have h1 : hasRecent
      [{ id := s.nextNotificationId, type := ins.type, title := ins.title,
         message := ins.message, priority := ins.priority, isRead := 0,
         relatedId := ins.relatedId, createdAt := now }] ty rid now2 w = false := by
    simp [hasRecent, h]
  rw [h1, Bool.or_false]

lemma hasRecent_of_mem (ns : List Notification) (n : Notification) (ty : String)
    (rid : Nat) (now w : Int) (hm : n ∈ ns) (hty : n.type = ty)
    (hrid : n.relatedId = some rid) (ht : now - w < n.createdAt) :
    hasRecent ns ty rid now w = true := by
  apply List.any_eq_true.mpr
  exact ⟨n, hm, by simp [hty, hrid, ht]⟩

lemma lowStockLoop_mem (now : Int) (xs : List Item) :
    ∀ (s : State) (n : Notification),
      n ∈ s.notifications → n ∈ (lowStockLoop now xs s).notifications := by
  induction xs with
  | nil => intro s n hn; exact hn
  | cons i rest ih =>
    intro s n hn
    simp only [lowStockLoop]
    by_cases hr : hasRecent s.notifications "low_stock" i.id now h24 = true
    · rw [if_pos hr]; exact ih s n hn
    · rw [if_neg hr]
      apply ih
      rw [createNotification_notifications]
      exact List.mem_append_left _ hn

lemma lowStockLoop_items (now : Int) (xs : List Item) :
    ∀ s : State, (lowStockLoop now xs s).items = s.items := by
  induction xs with
  | nil => intro s; rfl
  | cons i rest ih =>
    intro s
    simp only [lowStockLoop]
    by_cases hr : hasRecent s.notifications "low_stock" i.id now h24 = true
    · rw [if_pos hr]; exact ih s
    · rw [if_neg hr, ih]; rfl

lemma lowStockLoop_count (now : Int) (rid : Nat) (xs : List Item) :
    ∀ s : State, (xs.map Item.id).Nodup →
      notifCount (lowStockLoop now xs s).notifications "low_stock" rid
        = notifCount s.notifications "low_stock" rid
          + (if (xs.any (fun i => i.id == rid))
                && !(hasRecent s.notifications "low_stock" rid now h24) then 1 else 0) := by
  induction xs with
  | nil => intro s _; simp [lowStockLoop]
  | cons i rest ih =>
    intro s hnd
    rw [List.map_cons, List.nodup_cons] at hnd
    obtain ⟨hhead, hnd2⟩ := hnd
    simp only [lowStockLoop]
    by_cases hir : i.id = rid
    · subst hir
      have hrest_any : rest.any (fun j => j.id == i.id) = false := by
        rw [List.any_eq_false]
        intro j hj hcon
        exact hhead (List.mem_map.mpr ⟨j, hj, by simpa using hcon⟩)
      by_cases hr : hasRecent s.notifications "low_stock" i.id now h24 = true
      · rw [if_pos hr, ih s hnd2, hrest_any]
        simp [hr]
      · rw [if_neg hr]
        rw [ih _ hnd2]
        rw [notifCount_create_match now (lowStockInsert i) s "low_stock" i.id rfl rfl]
        rw [hrest_any]
        have hrb : hasRecent s.notifications "low_stock" i.id now h24 = false := by
          simpa using hr
        simp [hrb]
    · have hany : ((i :: rest).any (fun j => j.id == rid))
          = rest.any (fun j => j.id == rid) := by
        simp [List.any_cons, hir]
      by_cases hr : hasRecent s.notifications "low_stock" i.id now h24 = true
      · rw [if_pos hr, ih s hnd2, hany]
      · rw [if_neg hr]
        rw [ih _ hnd2]
        rw [notifCount_create_other now (lowStockInsert i) s "low_stock" rid
          (Or.inr (by simp [lowStockInsert, hir]))]
        rw [hasRecent_create_other now now h24 (lowStockInsert i) s "low_stock" rid
          (by simp [lowStockInsert, hir])]
        rw [hany]

lemma lowStockLoop_creates (now : Int) (xs : List Item) :
    ∀ (s : State) (i : Item),
      (xs.map Item.id).Nodup → i ∈ xs →
      hasRecent s.notifications "low_stock" i.id now h24 = false →
      ∃ n ∈ (lowStockLoop now xs s).notifications,
        n.type = "low_stock" ∧ n.relatedId = some i.id ∧ n.createdAt = now
        ∧ n.priority = (if i.quantityAvailable ≤ 2 then "urgent" else "high") := by
  induction xs with
  | nil => intro s i _ hmem; exact absurd hmem (List.not_mem_nil i)
  | cons j rest ih =>
    intro s i hnd hmem hfresh
    rw [List.map_cons, List.nodup_cons] at hnd
    obtain ⟨hhead, hnd2⟩ := hnd
    simp only [lowStockLoop]
    rcases List.mem_cons.mp hmem with he | hm
    · subst he
      rw [if_neg (by simp [hfresh])]
      refine ⟨(createNotification now (lowStockInsert i) s).2, ?_, rfl, rfl, rfl, rfl⟩
      apply lowStockLoop_mem
      rw [createNotification_notifications]
      exact List.mem_append_right _ (List.mem_singleton.mpr rfl)
    · have hij : j.id ≠ i.id := fun hcon => hhead (hcon ▸ List.mem_map.mpr ⟨i, hm, rfl⟩)
      by_cases hr : hasRecent s.notifications "low_stock" j.id now h24 = true
      · rw [if_pos hr]; exact ih s i hnd2 hm hfresh
      · rw [if_neg hr]
        apply ih _ i hnd2 hm
        rw [hasRecent_create_other now now h24 (lowStockInsert j) s "low_stock" i.id
          (by simp [lowStockInsert, hij])]
        exact hfresh

/-- What one checkLowStock run at time now guarantees, plus idempotence of a
second run within the 24 hour window: a qualifying unsuppressed item gains
exactly one low_stock notification with the priority rule, a non-qualifying
or suppressed item gains none, and a second run within 24 hours adds none. -/
def LowStockCheckSpec (s : State) (now : Int) : Prop :=
  (∀ i ∈ s.items, isLowStock i = true →
      hasRecent s.notifications "low_stock" i.id now h24 = false →
      notifCount (checkLowStock now s).notifications "low_stock" i.id
        = notifCount s.notifications "low_stock" i.id + 1
      ∧ ∃ n ∈ (checkLowStock now s).notifications,
          n.type = "low_stock" ∧ n.relatedId = some i.id ∧ n.createdAt = now
          ∧ n.priority = (if i.quantityAvailable ≤ 2 then "urgent" else "high"))
  ∧ (∀ i ∈ s.items,
      isLowStock i = false ∨ hasRecent s.notifications "low_stock" i.id now h24 = true →
      notifCount (checkLowStock now s).notifications "low_stock" i.id
        = notifCount s.notifications "low_stock" i.id)
  ∧ ∀ now2 : Int, now2 - h24 < now →
      ∀ i ∈ s.items, isLowStock i = true →
        hasRecent s.notifications "low_stock" i.id now h24 = false →
        notifCount (checkLowStock now2 (checkLowStock now s)).notifications "low_stock" i.id
          = notifCount s.notifications "low_stock" i.id + 1

/-- C5: the low stock check emits exactly one low_stock notification per item
with 0 < quantityAvailable < 5 lacking a low_stock notification for the same
item from the last 24 hours, priority urgent when quantityAvailable ≤ 2 and
high otherwise; other items gain nothing, and a second run within 24 hours on
the unchanged data adds nothing, so two runs create exactly one notification
per qualifying item. -/
theorem lowstock_check (s : State) (now : Int)
    (hnd : (s.items.map Item.id).Nodup) : LowStockCheckSpec s now := by
  have hxs_nd : ((s.items.filter isLowStock).map Item.id).Nodup :=
    List.Nodup.sublist (List.Sublist.map Item.id (List.filter_sublist s.items)) hnd
  have hinj : ∀ x ∈ s.items, ∀ y ∈ s.items, x.id = y.id → x = y := by
    intro x hx y hy hxy
    exact List.inj_on_of_nodup_map hnd hx hy hxy
  refine ⟨?_, ?_, ?_⟩
  · intro i hi hlow hfresh
    have hmem : i ∈ s.items.filter isLowStock := List.mem_filter.mpr ⟨hi, hlow⟩
    constructor
    · rw [checkLowStock, lowStockLoop_count now i.id _ s hxs_nd]
      have hany : (s.items.filter isLowStock).any (fun j => j.id == i.id) = true :=
        List.any_eq_true.mpr ⟨i, hmem, by simp⟩
      rw [hany, hfresh]
      rfl
    · exact lowStockLoop_creates now _ s i hxs_nd hmem hfresh
  · intro i hi hcase
    rw [checkLowStock, lowStockLoop_count now i.id _ s hxs_nd]
    rcases hcase with hlow | hrec
    · have hany : (s.items.filter isLowStock).any (fun j => j.id == i.id) = false := by
        rw [List.any_eq_false]
        intro j hj hcon
        have hj2 := List.mem_filter.mp hj
        have : j = i := hinj j hj2.1 i hi (by simpa using hcon)
        rw [this] at hj2
        rw [hj2.2] at hlow
        exact Bool.noConfusion hlow
      rw [hany]
      rfl
    · rw [hrec]
      simp
  · intro now2 ht i hi hlow hfresh
    have hmem : i ∈ s.items.filter isLowStock := List.mem_filter.mpr ⟨hi, hlow⟩
    have hcount1 : notifCount (checkLowStock now s).notifications "low_stock" i.id
        = notifCount s.notifications "low_stock" i.id + 1 := by
      rw [checkLowStock, lowStockLoop_count now i.id _ s hxs_nd]
      have hany : (s.items.filter isLowStock).any (fun j => j.id == i.id) = true :=
        List.any_eq_true.mpr ⟨i, hmem, by simp⟩
      rw [hany, hfresh]
      rfl
    obtain ⟨n, hnmem, hnty, hnrid, hncr, _⟩ :=
      lowStockLoop_creates now _ s i hxs_nd hmem hfresh
    have hitems : (checkLowStock now s).items = s.items := lowStockLoop_items now _ s
    have hrec2 : hasRecent (checkLowStock now s).notifications "low_stock" i.id now2 h24
        = true :=
      hasRecent_of_mem _ n "low_stock" i.id now2 h24 hnmem hnty hnrid (by rw [hncr]; exact ht)
    rw [checkLowStock, hitems, lowStockLoop_count now2 i.id _ _ hxs_nd, hrec2]
    simp [hcount1]

/-- One chair with 3 of 10 available, empty notifications. -/
def demoStateLow : State :=
  { initialState with items := [demoItem], nextItemId := 2 }

/-- C5 witness: the demo state has distinct item ids and satisfies the low
stock check specification at time 0. -/
theorem lowstock_check_witness :
    (demoStateLow.items.map Item.id).Nodup ∧ LowStockCheckSpec demoStateLow 0 :=
  ⟨by decide, lowstock_check demoStateLow 0 (by decide)⟩

/-! ### checkInvoiceApproval (server/notification-service.ts lines 108-142) -/

/-- Total value of an invoice: sum of unitPrice * quantityPurchased over the
items whose invoiceId is the invoice id. -/
def invoiceTotal (itemList : List Item) (inv : Invoice) : Rat :=
  (itemList.filter (fun i => i.invoiceId == inv.id)).foldl
    (fun sum i => sum + i.unitPrice * (i.quantityPurchased : Rat)) 0

/-- The notification row checkInvoiceApproval inserts for a high-value
invoice; the toFixed(2) decimal rendering of the total is abstracted by
toString. -/
def invoiceApprovalInsert (inv : Invoice) (total : Rat) : InsertNotification :=
  { type := "invoice_approval", title := "High-Value Invoice",
    message := "Invoice " ++ inv.invoiceNumber ++ " from " ++ inv.vendorName
      ++ " has a total value of " ++ toString total ++ ". Consider review process.",
    priority := if 5000 < total then "high" else "medium",
    relatedId := some inv.id }

/-- The for loop of checkInvoiceApproval; the items table is read once
before the loop, the notifications table on every iteration. -/
def invoiceLoop (now : Int) (itemList : List Item) : List Invoice → State → State
  | [], s => s
  | inv :: rest, s =>
    if 1000 < invoiceTotal itemList inv then
      if hasRecent s.notifications "invoice_approval" inv.id now h24 then
        invoiceLoop now itemList rest s
      else
        invoiceLoop now itemList rest
          (createNotification now (invoiceApprovalInsert inv (invoiceTotal itemList inv)) s).1
    else
      invoiceLoop now itemList rest s

/-- NotificationService.checkInvoiceApproval run at time now. -/
def checkInvoiceApproval (now : Int) (s : State) : State :=
  invoiceLoop now s.items s.invoices s

lemma invoiceLoop_mem (now : Int) (itemList : List Item) (invs : List Invoice) :
    ∀ (s : State) (n : Notification),
      n ∈ s.notifications → n ∈ (invoiceLoop now itemList invs s).notifications := by
  induction invs with
  | nil => intro s n hn; exact hn
  | cons inv rest ih =>
    intro s n hn
    simp only [invoiceLoop]
    by_cases hv : (1000 : Rat) < invoiceTotal itemList inv
    · rw [if_pos hv]
      by_cases hr : hasRecent s.notifications "invoice_approval" inv.id now h24 = true
      · rw [if_pos hr]; exact ih s n hn
      · rw [if_neg hr]
        apply ih
        rw [createNotification_notifications]
        exact List.mem_append_left _ hn
    · rw [if_neg hv]; exact ih s n hn

lemma invoiceLoop_count (now : Int) (itemList : List Item) (rid : Nat) (invs : List Invoice) :
    ∀ s : State, (invs.map Invoice.id).Nodup →
      notifCount (invoiceLoop now itemList invs s).notifications "invoice_approval" rid
        = notifCount s.notifications "invoice_approval" rid
          + (if (invs.any (fun inv => inv.id == rid && decide (1000 < invoiceTotal itemList inv)))
                && !(hasRecent s.notifications "invoice_approval" rid now h24) then 1 else 0) := by
  induction invs with
  | nil => intro s _; simp [invoiceLoop]
  | cons inv rest ih =>
    intro s hnd
    rw [List.map_cons, List.nodup_cons] at hnd
    obtain ⟨hhead, hnd2⟩ := hnd
    simp only [invoiceLoop]
    by_cases hv : (1000 : Rat) < invoiceTotal itemList inv
    · rw [if_pos hv]
      by_cases hir : inv.id = rid
      · subst hir
        have hrest_any : rest.any
            (fun j => j.id == inv.id && decide (1000 < invoiceTotal itemList j)) = false := by
          rw [List.any_eq_false]
          intro j hj hcon
          simp only [Bool.and_eq_true, beq_iff_eq, decide_eq_true_eq] at hcon
          exact hhead (List.mem_map.mpr ⟨j, hj, hcon.1⟩)
        by_cases hr : hasRecent s.notifications "invoice_approval" inv.id now h24 = true
        · rw [if_pos hr, ih s hnd2, hrest_any]
          simp [hr]
        · rw [if_neg hr]
          rw [ih _ hnd2]
          rw [notifCount_create_match now (invoiceApprovalInsert inv (invoiceTotal itemList inv))
            s "invoice_approval" inv.id rfl rfl]
          rw [hrest_any]
          have hrb : hasRecent s.notifications "invoice_approval" inv.id now h24 = false := by
            simpa using hr
          simp [hrb, hv]
      · have hany : ((inv :: rest).any
              (fun j => j.id == rid && decide (1000 < invoiceTotal itemList j)))
            = rest.any (fun j => j.id == rid && decide (1000 < invoiceTotal itemList j)) := by
          simp [List.any_cons, hir]
        by_cases hr : hasRecent s.notifications "invoice_approval" inv.id now h24 = true
        · rw [if_pos hr, ih s hnd2, hany]
        · rw [if_neg hr]
          rw [ih _ hnd2]
          rw [notifCount_create_other now (invoiceApprovalInsert inv (invoiceTotal itemList inv))
            s "invoice_approval" rid (Or.inr (by simp [invoiceApprovalInsert, hir]))]
          rw [hasRecent_create_other now now h24
            (invoiceApprovalInsert inv (invoiceTotal itemList inv)) s "invoice_approval" rid
            (by simp [invoiceApprovalInsert, hir])]
          rw [hany]
    · rw [if_neg hv]
      rw [ih s hnd2]
      have hany : ((inv :: rest).any
            (fun j => j.id == rid && decide (1000 < invoiceTotal itemList j)))
          = rest.any (fun j => j.id == rid && decide (1000 < invoiceTotal itemList j)) := by
        simp [List.any_cons, hv]
      rw [hany]

lemma invoiceLoop_creates (now : Int) (itemList : List Item) (invs : List Invoice) :
    ∀ (s : State) (inv : Invoice),
      (invs.map Invoice.id).Nodup → inv ∈ invs →
      1000 < invoiceTotal itemList inv →
      hasRecent s.notifications "invoice_approval" inv.id now h24 = false →
      ∃ n ∈ (invoiceLoop now itemList invs s).notifications,
        n.type = "invoice_approval" ∧ n.relatedId = some inv.id ∧ n.createdAt = now
        ∧ n.priority = (if 5000 < invoiceTotal itemList inv then "high" else "medium") := by
  induction invs with
  | nil => intro s inv _ hmem; exact absurd hmem (List.not_mem_nil inv)
  | cons j rest ih =>
    intro s inv hnd hmem hv hfresh
    rw [List.map_cons, List.nodup_cons] at hnd
    obtain ⟨hhead, hnd2⟩ := hnd
    simp only [invoiceLoop]
    rcases List.mem_cons.mp hmem with he | hm
    · subst he
      rw [if_pos hv, if_neg (by simp [hfresh])]
      refine ⟨(createNotification now (invoiceApprovalInsert inv (invoiceTotal itemList inv)) s).2,
        ?_, rfl, rfl, rfl, rfl⟩
      apply invoiceLoop_mem
      rw [createNotification_notifications]
      exact List.mem_append_right _ (List.mem_singleton.mpr rfl)
    · have hij : j.id ≠ inv.id := fun hcon => hhead (hcon ▸ List.mem_map.mpr ⟨inv, hm, rfl⟩)
      by_cases hjv : (1000 : Rat) < invoiceTotal itemList j
      · rw [if_pos hjv]
        by_cases hr : hasRecent s.notifications "invoice_approval" j.id now h24 = true
        · rw [if_pos hr]; exact ih s inv hnd2 hm hv hfresh
        · rw [if_neg hr]
          apply ih _ inv hnd2 hm hv
          rw [hasRecent_create_other now now h24
            (invoiceApprovalInsert j (invoiceTotal itemList j)) s "invoice_approval" inv.id
            (by simp [invoiceApprovalInsert, hij])]
          exact hfresh
      · rw [if_neg hjv]; exact ih s inv hnd2 hm hv hfresh

/-- What one checkInvoiceApproval run at time now guarantees: an invoice
whose total exceeds 1000 without a recent invoice_approval notification
gains exactly one, with priority high iff the total exceeds 5000; an invoice
with total at most 1000 gains none; a suppressed invoice gains none. -/
def InvoiceApprovalCheckSpec (s : State) (now : Int) : Prop :=
  (∀ inv ∈ s.invoices, 1000 < invoiceTotal s.items inv →
      hasRecent s.notifications "invoice_approval" inv.id now h24 = false →
      notifCount (checkInvoiceApproval now s).notifications "invoice_approval" inv.id
        = notifCount s.notifications "invoice_approval" inv.id + 1
      ∧ ∃ n ∈ (checkInvoiceApproval now s).notifications,
          n.type = "invoice_approval" ∧ n.relatedId = some inv.id ∧ n.createdAt = now
          ∧ n.priority = (if 5000 < invoiceTotal s.items inv then "high" else "medium"))
  ∧ (∀ inv ∈ s.invoices, invoiceTotal s.items inv ≤ 1000 →
      notifCount (checkInvoiceApproval now s).notifications "invoice_approval" inv.id
        = notifCount s.notifications "invoice_approval" inv.id)
  ∧ ∀ inv ∈ s.invoices, 1000 < invoiceTotal s.items inv →
      hasRecent s.notifications "invoice_approval" inv.id now h24 = true →
      notifCount (checkInvoiceApproval now s).notifications "invoice_approval" inv.id
        = notifCount s.notifications "invoice_approval" inv.id

/-- C6: the invoice approval check sums unitPrice * quantityPurchased over
each invoice, and creates one invoice_approval notification keyed by the
invoice id exactly when the total exceeds 1000 and none exists for that
invoice within 24 hours, priority high when the total exceeds 5000 and
medium otherwise; totals at most 1000 create nothing. -/
theorem invoice_approval_check (s : State) (now : Int)
    (hnd : (s.invoices.map Invoice.id).Nodup) : InvoiceApprovalCheckSpec s now := by
  have hinj : ∀ x ∈ s.invoices, ∀ y ∈ s.invoices, x.id = y.id → x = y := by
    intro x hx y hy hxy
    exact List.inj_on_of_nodup_map hnd hx hy hxy
  refine ⟨?_, ?_, ?_⟩
  · intro inv hmem hv hfresh
    constructor
    · rw [checkInvoiceApproval, invoiceLoop_count now s.items inv.id s.invoices s hnd]
      have hany : s.invoices.any
          (fun j => j.id == inv.id && decide (1000 < invoiceTotal s.items j)) = true :=
        List.any_eq_true.mpr ⟨inv, hmem, by simp [hv]⟩
      rw [hany, hfresh]
      rfl
    · exact invoiceLoop_creates now s.items s.invoices s inv hnd hmem hv hfresh
  · intro inv hmem hv
    rw [checkInvoiceApproval, invoiceLoop_count now s.items inv.id s.invoices s hnd]
    have hany : s.invoices.any
        (fun j => j.id == inv.id && decide (1000 < invoiceTotal s.items j)) = false := by
      rw [List.any_eq_false]
      intro j hj hcon
      simp only [Bool.and_eq_true, beq_iff_eq, decide_eq_true_eq] at hcon
      have hji : j = inv := hinj j hj inv hmem hcon.1
      rw [hji] at hcon
      exact absurd hcon.2 (not_lt.mpr hv)
    rw [hany]
    rfl
  · intro inv hmem hv hrec
    rw [checkInvoiceApproval, invoiceLoop_count now s.items inv.id s.invoices s hnd]
    rw [hrec]
    simp

/-- First demo invoice, total 6000. -/
def demoInv1 : Invoice :=
  { id := 1, invoiceNumber := "A1", vendorName := "Acme", purchaseDate := "2024-01-01",
    fileName := none, filePath := none }

/-- Second demo invoice, total 1200. -/
def demoInv2 : Invoice :=
  { id := 2, invoiceNumber := "A2", vendorName := "Acme", purchaseDate := "2024-01-02",
    fileName := none, filePath := none }

/-- Third demo invoice, total 800. -/
def demoInv3 : Invoice :=
  { id := 3, invoiceNumber := "A3", vendorName := "Acme", purchaseDate := "2024-01-03",
    fileName := none, filePath := none }

/-- Three invoices, for totals 6000, 1200 and 800. -/
def demoInvoices : List Invoice := [demoInv1, demoInv2, demoInv3]

/-- Their items: 10 x 600, 4 x 300 and 8 x 100. -/
def demoInvItems : List Item :=
  [{ id := 1, name := "Server", category := "Electronics", quantityPurchased := 10,
     quantityAvailable := 10, unitPrice := 600, invoiceId := 1 },
   { id := 2, name := "Desk", category := "Furniture", quantityPurchased := 4,
     quantityAvailable := 4, unitPrice := 300, invoiceId := 2 },
   { id := 3, name := "Lamp", category := "Furniture", quantityPurchased := 8,
     quantityAvailable := 8, unitPrice := 100, invoiceId := 3 }]

/-- The state holding the three demo invoices and their items. -/
def demoStateInv : State :=
  { initialState with invoices := demoInvoices, items := demoInvItems, nextInvoiceId := 4, nextItemId := 4 }

/-- C6 witness: the demo invoices (whose items total 6000, 1200 and 800)
have distinct ids and satisfy the invoice approval specification at time 0. -/
theorem invoice_approval_check_witness :
    (demoStateInv.invoices.map Invoice.id).Nodup
    ∧ InvoiceApprovalCheckSpec demoStateInv 0 :=
  ⟨by decide, invoice_approval_check demoStateInv 0 (by decide)⟩

end InventoryTracker
